import Mathlib

set_option maxRecDepth 10000

namespace WebBuilder

/-! Shallow embedding of the web-builder core (appBuilder.js and the
build-stream endpoint of server.js): the response parser, the in-memory
session store with TTL and quotas, the progress broker, and the build
orchestrator with the external generation call abstracted as an oracle. -/

/-- Whitespace class of the JavaScript regular-expression escape backslash-s
and of String.prototype.trim, restricted to its ASCII members plus the
no-break space and the byte-order mark. -/
def isJsSpace (c : Char) : Bool :=
  c == ' ' || c == '\t' || c == '\n' || c == '\r' ||
  c == Char.ofNat 11 || c == Char.ofNat 12 || c == Char.ofNat 160 ||
  c == Char.ofNat 65279

/-- Word-character class of the JavaScript escape backslash-w. -/
def isWordChar (c : Char) : Bool :=
  c.isAlpha || c.isDigit || c == '_'

/-- Model of String.prototype.trim on character lists. -/
def jsTrim (l : List Char) : List Char :=
  ((l.dropWhile isJsSpace).reverse.dropWhile isJsSpace).reverse

/-- Does the remaining text start with a complete bold marker: two
asterisks, one or more non-asterisk characters, then two asterisks. This is
the first alternative of the lookahead of the file-extraction regular
expression. -/
def markerAhead : List Char → Bool
  | '*' :: '*' :: t =>
    let name := t.takeWhile (fun c => c != '*')
    !name.isEmpty &&
      (match t.drop name.length with
        | '*' :: '*' :: _ => true
        | _ => false)
  | _ => false

/-- The lookahead of the file-extraction regular expression: the next bold
marker, one of the recognized boilerplate phrases after a blank line, or the
escape backslash-Z. In a JavaScript regular expression backslash-Z is not an
end-of-input anchor but an identity escape for the literal character Z, so
the final alternative tests for a literal Z. -/
def lookaheadAt (r : List Char) : Bool :=
  markerAhead r ||
  List.isPrefixOf ['\n', '\n', '-', '-', '-'] r ||
  List.isPrefixOf ['\n', '\n', 'T', 'h', 'a', 't', Char.ofNat 39, 's'] r ||
  List.isPrefixOf ['\n', '\n', 'T', 'h', 'e'] r ||
  List.isPrefixOf ['\n', '\n', 'H', 'e', 'r', 'e'] r ||
  List.isPrefixOf ['\n', '\n', 'T', 'h', 'i', 's'] r ||
  List.isPrefixOf ['\n', '\n', 'I', Char.ofNat 39, 'v', 'e'] r ||
  (match r with | 'Z' :: _ => true | _ => false)

/-- Lazy scan of the body group: find the shortest prefix whose following
position satisfies the lookahead, returning the body and the remaining
text. When no position satisfies the lookahead, including the end of the
input where no alternative can match, the attempt fails. -/
def bodySearch : List Char → Option (List Char × List Char)
  | [] => if lookaheadAt [] then some ([], []) else none
  | c :: t =>
    if lookaheadAt (c :: t) then some ([], c :: t)
    else
      match bodySearch t with
      | some (b, rest) => some (c :: b, rest)
      | none => none

/-- Candidate resumption points for the backtracking of the greedy
whitespace followed by a newline in the marker line: one candidate per
newline inside the whitespace run, in ascending position order. -/
def ascSplits : List Char → List Char → List (List Char)
  | [], _ => []
  | c :: t, rest0 =>
    (if c == '\n' then [t ++ rest0] else []) ++ ascSplits t rest0

/-- First successful body search over a list of candidates. -/
def firstSome : List (List Char) → Option (List Char × List Char)
  | [] => none
  | r :: rs =>
    match bodySearch r with
    | some x => some x
    | none => firstSome rs

/-- Attempt to match the file-block regular expression at the head of the
text: two asterisks, a non-empty run of non-asterisk characters (group
one), two asterisks, greedy whitespace ending with a newline (backtracking
from the last newline of the run towards the first), then the lazy body
(group two) delimited by the lookahead. Returns group one, group two and
the text after the match. -/
def matchAt : List Char → Option (List Char × List Char × List Char)
  | '*' :: '*' :: t =>
    let name := t.takeWhile (fun c => c != '*')
    if name.isEmpty then none
    else
      match t.drop name.length with
      | '*' :: '*' :: v =>
        let ws := v.takeWhile isJsSpace
        let rest0 := v.drop ws.length
        match firstSome (ascSplits ws rest0).reverse with
        | some (b, rest) => some (name, b, rest)
        | none => none
      | _ => none
  | _ => none

/-- The backtick character, written by code point. -/
def backquote : Char := Char.ofNat 96

/-- Strip a leading code fence: three backticks, a run of word characters
(the optional language tag), and an optional newline. -/
def stripLeadFence (l : List Char) : List Char :=
  match l with
  | c1 :: c2 :: c3 :: t =>
    if c1 == backquote && c2 == backquote && c3 == backquote then
      match t.dropWhile isWordChar with
      | '\n' :: t2 => t2
      | t1 => t1
    else l
  | _ => l

/-- Strip a trailing code fence: an optional newline then three backticks
at the very end; the leftmost match removes the newline too when present. -/
def stripTrailFence (l : List Char) : List Char :=
  match l.reverse with
  | c1 :: c2 :: c3 :: rest =>
    if c1 == backquote && c2 == backquote && c3 == backquote then
      match rest with
      | '\n' :: t => t.reverse
      | t => t.reverse
    else l
  | _ => l

/-- Cleaning applied to each extracted body: trim surrounding whitespace,
then strip the leading fence and the trailing fence. -/
def cleanContent (b : List Char) : List Char :=
  stripTrailFence (stripLeadFence (jsTrim b))

/-- JavaScript object property assignment on an insertion-ordered
association list: replace the value in place when the key exists, append
otherwise. -/
def setFile (files : List (String × String)) (k v : String) :
    List (String × String) :=
  if files.any (fun p => p.1 == k) then
    files.map (fun p => if p.1 == k then (k, v) else p)
  else files ++ [(k, v)]

/-- The exec loop of extractFiles: repeatedly search forward for the next
match, trim the filename, clean the body, and record the block only when
both are non-empty. The fuel bounds the recursion; one unit is spent per
character position stepped over or per match consumed, and every match
consumes at least one character, so any fuel above the text length is
enough. -/
def execLoopF : Nat → List Char → List (String × String) →
    List (String × String)
  | 0, _, files => files
  | n + 1, s, files =>
    match matchAt s with
    | some (name, b, rest) =>
      let filename := (jsTrim name).asString
      let content := (cleanContent b).asString
      let files2 :=
        if filename ≠ "" ∧ content ≠ "" then setFile files filename content
        else files
      execLoopF n rest files2
    | none =>
      match s with
      | [] => files
      | _ :: t => execLoopF n t files

/-- generateBasicHTML from the source: a fixed page shell. The raw response
is taken as an argument, as in the source, and is not used. -/
def generateBasicHTML (response : String) : String :=
  "<!DOCTYPE html>
<html lang=\"en\">
<head>
    <meta charset=\"UTF-8\">
    <meta name=\"viewport\" content=\"width=device-width, initial-scale=1.0\">
    <title>Generated App</title>
    <link rel=\"stylesheet\" href=\"style.css\">
</head>
<body>
    <div class=\"container\">
        <h1>Generated Web App</h1>
        <div id=\"app\">
            <!-- App content will be added by JavaScript -->
        </div>
    </div>
    <script src=\"script.js\"></script>
</body>
</html>"

/-- generateBasicCSS from the source: the baseline stylesheet. -/
def generateBasicCSS : String :=
  "* \x7b
    margin: 0;
    padding: 0;
    box-sizing: border-box;
\x7d

body \x7b
    font-family: -apple-system, BlinkMacSystemFont, \x27Segoe UI\x27, Roboto, sans-serif;
    line-height: 1.6;
    color: #333;
    background-color: #f5f5f5;
\x7d

.container \x7b
    max-width: 1200px;
    margin: 0 auto;
    padding: 2rem;
\x7d"

/-- generateBasicJS from the source: the baseline script. -/
def generateBasicJS : String :=
  "document.addEventListener(\x27DOMContentLoaded\x27, function() \x7b
    console.log(\x27Generated app loaded!\x27);
\x7d);"

/-- extractFiles from the source: run the exec loop over the raw text and,
when no block was accepted, fall back to the synthesized three-file
structure. -/
def extractFiles (response : String) : List (String × String) :=
  let files := execLoopF (response.data.length + 1) response.data []
  if files = [] then
    [("index.html", generateBasicHTML response),
     ("style.css", generateBasicCSS),
     ("script.js", generateBasicJS)]
  else files

/-! The in-memory session store of appBuilder.js: an insertion-ordered map
from app id to app record, with a time-to-live sweep and admission quotas. -/

/-- One stored app record, the appData object built by storeApp. -/
structure AppData where
  appId : String
  files : List (String × String)
  prompt : String
  userIP : String
  createdAt : Int
  lastAccessed : Int
deriving DecidableEq

/-- The apps map, in insertion order. -/
abbrev AppsMap := List (String × AppData)

/-- JavaScript Map.set: update the value in place when the key exists,
append otherwise. -/
def mapSet (m : AppsMap) (k : String) (v : AppData) : AppsMap :=
  if m.any (fun p => p.1 == k) then
    m.map (fun p => if p.1 == k then (k, v) else p)
  else m ++ [(k, v)]

/-- JavaScript Map.get. -/
def mapGet (m : AppsMap) (k : String) : Option AppData :=
  List.lookup k m

deriving instance DecidableEq for Except

/-- APP_EXPIRY_TIME: one hour in milliseconds. -/
def APP_EXPIRY_TIME : Int := 60 * 60 * 1000

/-- MAX_APPS_TOTAL: the global cap. -/
def MAX_APPS_TOTAL : Nat := 1000

/-- MAX_APPS_PER_IP: the per-origin cap. -/
def MAX_APPS_PER_IP : Nat := 10

/-- cleanupExpiredApps: delete every app whose age at the given time
exceeds the expiry time. -/
def cleanupExpiredApps (now : Int) (m : AppsMap) : AppsMap :=
  m.filter (fun p => !(decide (now - p.2.createdAt > APP_EXPIRY_TIME)))

/-- storeApp: unconditionally set the record under its id, with both
timestamps set to the current time, and return the record. -/
def storeApp (m : AppsMap) (appId : String) (files : List (String × String))
    (prompt userIP : String) (now : Int) : AppData × AppsMap :=
  let appData : AppData := ⟨appId, files, prompt, userIP, now, now⟩
  (appData, mapSet m appId appData)

/-- getApp: a plain map lookup that refreshes lastAccessed on a hit; the
age of the record is not examined. -/
def getApp (m : AppsMap) (appId : String) (now : Int) :
    Option AppData × AppsMap :=
  match mapGet m appId with
  | some app =>
    let app2 := { app with lastAccessed := now }
    (some app2, mapSet m appId app2)
  | none => (none, m)

/-- getAppFiles from the companion storage module: a plain lookup returning
the files mapping, refreshing lastAccessed, again with no age check. -/
def getAppFiles (m : AppsMap) (appId : String) (now : Int) :
    Option (List (String × String)) × AppsMap :=
  match mapGet m appId with
  | some app => (some app.files, mapSet m appId { app with lastAccessed := now })
  | none => (none, m)

/-- The message thrown when the global cap is reached. -/
def globalLimitMessage : String :=
  "Server capacity reached. Please try again later."

/-- The message thrown when the per-origin cap is reached. -/
def perIPLimitMessage : String :=
  "You have reached the limit of 10 apps. Please wait for them to expire."

/-- checkLimits: sweep first, then the global cap, then the per-origin cap;
the swept map is returned so that the sweep persists even when the check
then throws. -/
def checkLimits (m : AppsMap) (userIP : String) (now : Int) :
    Except String AppsMap :=
  let m2 := cleanupExpiredApps now m
  if m2.length ≥ MAX_APPS_TOTAL then Except.error globalLimitMessage
  else if (m2.filter (fun p => p.2.userIP == userIP)).length ≥ MAX_APPS_PER_IP
    then Except.error perIPLimitMessage
  else Except.ok m2

/-! The progress broker: the buildStreams table of server.js together with
the conditional write performed by sendLog. -/

/-- Operations on the progress broker: register the single subscriber of a
session id (replacing any existing one), unregister it, or publish an
event. Subscribers are identified by an abstract handle. -/
inductive BrokerOp where
  | openStream (sid : String) (sub : Nat)
  | closeStream (sid : String)
  | publish (sid : String) (type message : String)
deriving DecidableEq

/-- Broker state: the subscriber table keyed by session id, and the log of
deliveries in delivery order, each tagged with the receiving subscriber. -/
structure BrokerState where
  streams : List (String × Nat)
  delivered : List (Nat × String × String)
deriving DecidableEq

/-- Assignment into the subscriber table, replacing in place. -/
def setStream (l : List (String × Nat)) (k : String) (v : Nat) :
    List (String × Nat) :=
  if l.any (fun p => p.1 == k) then
    l.map (fun p => if p.1 == k then (k, v) else p)
  else l ++ [(k, v)]

/-- The registered subscriber of a session id, if any. -/
def lookupStream (st : BrokerState) (sid : String) : Option Nat :=
  List.lookup sid st.streams

/-- One broker step: subscription assignment, deletion on disconnect, or
the conditional write of sendLog, which delivers to the registered
subscriber when present and silently drops the event otherwise. -/
def brokerStep (st : BrokerState) : BrokerOp → BrokerState
  | BrokerOp.openStream sid sub => { st with streams := setStream st.streams sid sub }
  | BrokerOp.closeStream sid =>
    { st with streams := st.streams.filter (fun p => !(p.1 == sid)) }
  | BrokerOp.publish sid ty msg =>
    match List.lookup sid st.streams with
    | some sub => { st with delivered := st.delivered ++ [(sub, ty, msg)] }
    | none => st

/-- The broker at process start: no subscribers, nothing delivered. -/
def brokerInit : BrokerState := ⟨[], []⟩

/-- Run a sequence of broker operations. -/
def brokerRun (st : BrokerState) (ops : List BrokerOp) : BrokerState :=
  ops.foldl brokerStep st

/-- Events delivered to one subscriber, in delivery order. -/
def deliveredTo (s : Nat) (l : List (Nat × String × String)) :
    List (String × String) :=
  (l.filter (fun p => p.1 == s)).map (fun p => p.2)

/-! The build orchestrator, with the external chat-completion call
abstracted as an oracle: an error value models a thrown transport or
provider error, a success carries the raw response text. -/

/-- One sendLog emission: target app id, event type, message. -/
structure LogEvent where
  appId : String
  type : String
  message : String
deriving DecidableEq

/-- The result object of a build. -/
structure BuildResult where
  success : Bool
  appId : String
  fileNames : List String
  error : Option String
  prompt : Option String
deriving DecidableEq

/-- A build run: its result object, the store afterwards, and the sendLog
emissions in order. -/
structure BuildOutput where
  result : BuildResult
  apps : AppsMap
  events : List LogEvent
deriving DecidableEq

/-- buildWebApp: log the connection steps, consult the generation oracle;
on success extract the files and commit the app to the store in a single
update, on a thrown error return a failure result leaving the store
untouched. -/
def buildWebApp (gen : Except String String) (prompt appId userIP : String)
    (now : Int) (m : AppsMap) : BuildOutput :=
  let pre : List LogEvent :=
    [⟨appId, "log", "Building web app for prompt: \"" ++ prompt ++ "\""⟩,
     ⟨appId, "log", "Connecting to OpenAI..."⟩,
     ⟨appId, "log", "Sending request to GPT-4o..."⟩]
  match gen with
  | Except.error e =>
    { result := ⟨false, appId, [], some e, some prompt⟩
      apps := m
      events := pre ++ [⟨appId, "error", "Error building web app: " ++ e⟩] }
  | Except.ok response =>
    let files := extractFiles response
    let stored := storeApp m appId files prompt userIP now
    { result := ⟨true, appId, files.map (fun p => p.1), none, none⟩
      apps := stored.2
      events := pre ++
        [⟨appId, "log", "Received response from OpenAI, processing files..."⟩,
         ⟨appId, "log", "Extracted " ++ toString files.length ++ " files from response"⟩,
         ⟨appId, "log", "Storing app in memory..."⟩,
         ⟨appId, "log", "App generation completed!"⟩] }

/-- buildWebAppWithLogs: resolve the app id, check the limits (whose sweep
persists even when the check throws), and on success delegate to
buildWebApp; a thrown limit error is caught and converted into a failure
result after an error log event. -/
def buildWebAppWithLogs (gen : Except String String) (prompt userIP : String)
    (predefinedAppId : Option String) (generatedId : String) (now : Int)
    (m : AppsMap) : BuildOutput :=
  let appId := predefinedAppId.getD generatedId
  let checking : LogEvent := ⟨appId, "log", "Checking resource limits..."⟩
  match checkLimits m userIP now with
  | Except.error msg =>
    { result := ⟨false, appId, [], some msg, none⟩
      apps := cleanupExpiredApps now m
      events := [checking, ⟨appId, "error", "Build failed: " ++ msg⟩] }
  | Except.ok m2 =>
    let opening : LogEvent := ⟨appId, "log", "Initializing OpenAI client..."⟩
    let out := buildWebApp gen prompt appId userIP now m2
    if out.result.success then
      { out with events := checking :: opening :: out.events ++
          [⟨appId, "success", "Web app built successfully!"⟩,
           ⟨appId, "complete", "App completed with ID: " ++ appId⟩] }
    else
      { out with events := checking :: opening :: out.events ++
          [⟨appId, "error", "Error: " ++ out.result.error.getD ""⟩] }

/-- One admission in the quota scenario: run checkLimits and, on success,
store a fresh one-file app for the origin (the sequence performed by a
successful build). -/
def admitApp (m : AppsMap) (appId userIP : String) (now : Int) :
    Except String AppsMap :=
  match checkLimits m userIP now with
  | Except.error e => Except.error e
  | Except.ok m2 => Except.ok (storeApp m2 appId [("index.html", "x")] "p" userIP now).2

/-- Eleven distinct app ids for the quota scenario. -/
def scenarioIds : List String :=
  ["a0", "a1", "a2", "a3", "a4", "a5", "a6", "a7", "a8", "a9", "a10"]

/-- Store state after the first k same-origin admissions at time zero. -/
def scenarioState (k : Nat) : Except String AppsMap :=
  (scenarioIds.take k).foldl
    (fun acc i => acc.bind (fun m => admitApp m i "ip1" 0)) (Except.ok [])

/-! Helper lemmas about the parser. -/

theorem setFile_ne_nil (fs : List (String × String)) (k v : String) :
    setFile fs k v ≠ [] := by
  unfold setFile
  by_cases h : fs.any (fun p => p.1 == k)
  · simp only [h, if_true]
    intro hc
    rw [List.map_eq_nil_iff] at hc
    subst hc
    simp at h
  · simp only [h]
    simp

theorem mem_setFile {P : String × String → Prop} {fs : List (String × String)}
    {k v : String} (hfs : ∀ p ∈ fs, P p) (hkv : P (k, v)) :
    ∀ p ∈ setFile fs k v, P p := by
  intro p hp
  unfold setFile at hp
  by_cases h : fs.any (fun q => q.1 == k)
  · simp only [h, if_true, List.mem_map] at hp
    obtain ⟨q, hq, hpq⟩ := hp
    by_cases hqk : q.1 == k
    · rw [if_pos hqk] at hpq
      rw [← hpq]
      exact hkv
    · rw [if_neg hqk] at hpq
      rw [← hpq]
      exact hfs q hq
  · simp only [h, if_neg, Bool.false_eq_true, not_false_eq_true,
      List.mem_append, List.mem_singleton] at hp
    rcases hp with hp | hp
    · exact hfs p hp
    · rw [hp]; exact hkv

theorem execLoopF_mem :
    ∀ (n : Nat) (s : List Char) (fs : List (String × String)),
      (∀ p ∈ fs, p.1 ≠ "" ∧ p.2 ≠ "") →
      ∀ p ∈ execLoopF n s fs, p.1 ≠ "" ∧ p.2 ≠ "" := by
  intro n
  induction n with
  | zero => intro s fs hfs; simpa [execLoopF] using hfs
  | succ n ih =>
    intro s fs hfs p hp
    unfold execLoopF at hp
    cases hm : matchAt s with
    | some x =>
      obtain ⟨name, b, rest⟩ := x
      rw [hm] at hp
      simp only at hp
      by_cases hc : (jsTrim name).asString ≠ "" ∧ (cleanContent b).asString ≠ ""
      · rw [if_pos hc] at hp
        exact ih rest _ (mem_setFile hfs hc) p hp
      · rw [if_neg hc] at hp
        exact ih rest fs hfs p hp
    | none =>
      rw [hm] at hp
      cases s with
      | nil => exact hfs p hp
      | cons c t => exact ih t fs hfs p hp

theorem generateBasicHTML_ne (r : String) : generateBasicHTML r ≠ "" := by
  unfold generateBasicHTML
  decide

theorem generateBasicCSS_ne : generateBasicCSS ≠ "" := by
  unfold generateBasicCSS
  decide

theorem generateBasicJS_ne : generateBasicJS ≠ "" := by
  unfold generateBasicJS
  decide

theorem extractFiles_ne_nil (raw : String) : extractFiles raw ≠ [] := by
  unfold extractFiles
  by_cases h : execLoopF (raw.data.length + 1) raw.data [] = []
  · rw [h]
    simp
  · simp only [h, if_neg, if_false]
    intro hc
    exact h hc

theorem extractFiles_mem (raw : String) :
    ∀ p ∈ extractFiles raw, p.1 ≠ "" ∧ p.2 ≠ "" := by
  unfold extractFiles
  by_cases h : execLoopF (raw.data.length + 1) raw.data [] = []
  · rw [h]
    intro p hp
    rw [if_pos rfl] at hp
    simp only [List.mem_cons, List.not_mem_nil, or_false] at hp
    rcases hp with hp | hp | hp
    · subst hp
      exact ⟨show ("index.html" : String) ≠ "" by decide, generateBasicHTML_ne raw⟩
    · subst hp
      exact ⟨show ("style.css" : String) ≠ "" by decide, generateBasicCSS_ne⟩
    · subst hp
      exact ⟨show ("script.js" : String) ≠ "" by decide, generateBasicJS_ne⟩
  · simp only [h, if_neg, if_false]
    exact execLoopF_mem _ _ _ (by intro p hp; exact absurd hp (List.not_mem_nil p))

/-- Claim C7: for every raw input text, parse returns a mapping with at
least one entry, and every entry of that mapping has a non-empty filename
and non-empty content; blocks with an empty filename or empty cleaned
content are discarded, never emitted. -/
theorem claim7_result_has_nonempty_entries (raw : String) :
    extractFiles raw ≠ [] ∧ ∀ p ∈ extractFiles raw, p.1 ≠ "" ∧ p.2 ≠ "" :=
  ⟨extractFiles_ne_nil raw, extractFiles_mem raw⟩

/-- Claim C3: for every raw input text in which the parser accepts zero
blocks, parse returns exactly three entries, an HTML file, a stylesheet and
a script, and this fallback result is deterministic: two parses of the same
input yield identical results. -/
theorem claim3_zero_blocks_fallback (raw : String)
    (h : execLoopF (raw.data.length + 1) raw.data [] = []) :
    extractFiles raw = [("index.html", generateBasicHTML raw),
                        ("style.css", generateBasicCSS),
                        ("script.js", generateBasicJS)] ∧
    (extractFiles raw).length = 3 ∧
    ∀ raw2 : String, raw2 = raw → extractFiles raw2 = extractFiles raw := by
  have hout : extractFiles raw = [("index.html", generateBasicHTML raw),
      ("style.css", generateBasicCSS), ("script.js", generateBasicJS)] := by
    unfold extractFiles
    rw [h, if_pos rfl]
  refine ⟨hout, ?_, ?_⟩
  · rw [hout]
    rfl
  · intro raw2 h2
    rw [h2]

/-- Witness for claim C3 at the concrete input "hello", which contains no
block. -/
theorem claim3_witness :
    execLoopF ("hello".data.length + 1) "hello".data [] = [] ∧
    (extractFiles "hello" = [("index.html", generateBasicHTML "hello"),
                             ("style.css", generateBasicCSS),
                             ("script.js", generateBasicJS)] ∧
     (extractFiles "hello").length = 3 ∧
     ∀ raw2 : String, raw2 = "hello" →
       extractFiles raw2 = extractFiles "hello") :=
  ⟨by decide, claim3_zero_blocks_fallback "hello" (by decide)⟩

/-- Claim C4, evaluation at the failing input. The input consists of
exactly one well-formed block, the marker line naming a.txt followed by the
non-empty body hello, yet the parser returns the three fallback entries and
no entry named a.txt: in a JavaScript regular expression the escape
backslash-Z is a literal Z rather than an end-of-input anchor, so a final
block with no following marker, no recognized boilerplate phrase and no
letter Z in its body is never matched. -/
theorem claim4_final_block_lost_eval :
    extractFiles "**a.txt**\nhello"
      = [("index.html", generateBasicHTML "**a.txt**\nhello"),
         ("style.css", generateBasicCSS),
         ("script.js", generateBasicJS)] ∧
    (∀ p ∈ extractFiles "**a.txt**\nhello", p.1 ≠ "a.txt") := by
  constructor
  · rfl
  · decide

/-- Counterexample to claim C6 at the input "hello123": the parser falls
back, yet the raw text does not occur inside the synthesized HTML entry,
because generateBasicHTML ignores its argument. -/
theorem claim6_counterexample :
    execLoopF ("hello123".data.length + 1) "hello123".data [] = [] ∧
    List.lookup "index.html" (extractFiles "hello123")
      = some (generateBasicHTML "hello123") ∧
    ¬ List.IsInfix "hello123".data (generateBasicHTML "hello123").data := by
  refine ⟨by decide, by rfl, by decide⟩

/-- Claim C6 as amended: when the parser falls back, the synthesized HTML
entry is a fixed document that does not depend on the raw input text; the
raw text is not embedded in it. -/
theorem claim6_amended_fallback_html_fixed (raw : String)
    (h : execLoopF (raw.data.length + 1) raw.data [] = []) :
    List.lookup "index.html" (extractFiles raw) = some (generateBasicHTML raw) ∧
    ∀ raw2 : String, generateBasicHTML raw = generateBasicHTML raw2 := by
  have hout : extractFiles raw = [("index.html", generateBasicHTML raw),
      ("style.css", generateBasicCSS), ("script.js", generateBasicJS)] := by
    unfold extractFiles
    rw [h, if_pos rfl]
  constructor
  · rw [hout]
    rfl
  · intro raw2
    rfl

/-- Witness for the amended claim C6 at the concrete input "abc". -/
theorem claim6_amended_witness :
    execLoopF ("abc".data.length + 1) "abc".data [] = [] ∧
    (List.lookup "index.html" (extractFiles "abc")
       = some (generateBasicHTML "abc") ∧
     ∀ raw2 : String, generateBasicHTML "abc" = generateBasicHTML raw2) :=
  ⟨by decide, claim6_amended_fallback_html_fixed "abc" (by decide)⟩

/-! Helper lemmas about the store map. -/

theorem lookup_cons_pair {b : Type} (k a1 : String) (a2 : b)
    (t : List (String × b)) :
    List.lookup k ((a1, a2) :: t)
      = if (k == a1) = true then some a2 else List.lookup k t := by
  rw [List.lookup_cons]
  by_cases h : (k == a1) = true
  · rw [h, if_pos rfl]
  · rw [Bool.not_eq_true] at h
    rw [h]
    simp

theorem beq_comm_false (a c : String) (h : (a == c) = false) :
    (c == a) = false := by
  rw [beq_eq_false_iff_ne] at h ⊢
  exact fun he => h he.symm

theorem lookup_filter_none (k : String) (l : AppsMap)
    (p : String × AppData → Bool) (h : List.lookup k l = none) :
    List.lookup k (l.filter p) = none := by
  induction l with
  | nil => rfl
  | cons a t ih =>
    obtain ⟨a1, a2⟩ := a
    rw [lookup_cons_pair] at h
    by_cases hk : (k == a1) = true
    · rw [if_pos hk] at h
      exact absurd h (by simp)
    · rw [Bool.not_eq_true] at hk
      rw [if_neg (by rw [hk]; simp)] at h
      rw [List.filter_cons]
      by_cases hp : p (a1, a2) = true
      · rw [if_pos hp, lookup_cons_pair, if_neg (by rw [hk]; simp)]
        exact ih h
      · rw [Bool.not_eq_true] at hp
        rw [hp]
        simp only [Bool.false_eq_true, if_false]
        exact ih h

theorem lookup_filter_of_key (k : String) (l : AppsMap)
    (p : String × AppData → Bool)
    (h : ∀ q ∈ l, q.1 = k → p q = false) :
    List.lookup k (l.filter p) = none := by
  induction l with
  | nil => rfl
  | cons a t ih =>
    obtain ⟨a1, a2⟩ := a
    have ht : ∀ q ∈ t, q.1 = k → p q = false := by
      intro q hq
      exact h q (List.mem_cons_of_mem _ hq)
    rw [List.filter_cons]
    by_cases hp : p (a1, a2) = true
    · rw [if_pos hp, lookup_cons_pair]
      by_cases hk : (k == a1) = true
      · have hk2 : a1 = k := (beq_iff_eq.mp hk).symm
        have hbad := h (a1, a2) (List.mem_cons_self _ _) hk2
        rw [hp] at hbad
        exact absurd hbad (by simp)
      · rw [Bool.not_eq_true] at hk
        rw [if_neg (by rw [hk]; simp)]
        exact ih ht
    · rw [Bool.not_eq_true] at hp
      rw [hp]
      simp only [Bool.false_eq_true, if_false]
      exact ih ht

theorem mapGet_mapSet_self (m : AppsMap) (k : String) (v : AppData) :
    mapGet (mapSet m k v) k = some v := by
  unfold mapSet mapGet
  by_cases h : m.any (fun p => p.1 == k) = true
  · rw [if_pos h]
    induction m with
    | nil => simp at h
    | cons a t ih =>
      obtain ⟨a1, a2⟩ := a
      rw [List.any_cons, Bool.or_eq_true] at h
      rw [List.map_cons]
      by_cases ha : (a1 == k) = true
      · rw [if_pos ha, lookup_cons_pair, if_pos (by simp)]
      · rw [Bool.not_eq_true] at ha
        rcases h with h | h
        · rw [ha] at h
          exact absurd h (by simp)
        · rw [ha]
          simp only [Bool.false_eq_true, if_false]
          rw [lookup_cons_pair, if_neg (by rw [beq_comm_false a1 k ha]; simp)]
          exact ih h
  · rw [Bool.not_eq_true] at h
    rw [h]
    simp only [Bool.false_eq_true, if_false]
    induction m with
    | nil => simp [lookup_cons_pair]
    | cons a t ih =>
      obtain ⟨a1, a2⟩ := a
      rw [List.any_cons, Bool.or_eq_false_iff] at h
      rw [List.cons_append, lookup_cons_pair,
        if_neg (by rw [beq_comm_false a1 k h.1]; simp)]
      exact ih h.2

theorem mapGet_mapSet_ne (m : AppsMap) (k k2 : String) (v : AppData)
    (h : k2 ≠ k) : mapGet (mapSet m k v) k2 = mapGet m k2 := by
  unfold mapSet mapGet
  have hk2k : (k2 == k) = false := beq_eq_false_iff_ne.mpr h
  by_cases hany : m.any (fun p => p.1 == k) = true
  · rw [if_pos hany]
    clear hany
    induction m with
    | nil => rfl
    | cons a t ih =>
      obtain ⟨a1, a2⟩ := a
      rw [List.map_cons]
      by_cases ha : (a1 == k) = true
      · have ha2 : a1 = k := beq_iff_eq.mp ha
        subst ha2
        rw [if_pos ha, lookup_cons_pair, lookup_cons_pair]
        rw [if_neg (by rw [hk2k]; simp), if_neg (by rw [hk2k]; simp)]
        exact ih
      · rw [Bool.not_eq_true] at ha
        rw [ha]
        simp only [Bool.false_eq_true, if_false]
        rw [lookup_cons_pair, lookup_cons_pair]
        by_cases hk2a : (k2 == a1) = true
        · rw [if_pos hk2a, if_pos hk2a]
        · rw [Bool.not_eq_true] at hk2a
          rw [if_neg (by rw [hk2a]; simp), if_neg (by rw [hk2a]; simp)]
          exact ih
  · rw [Bool.not_eq_true] at hany
    rw [hany]
    simp only [Bool.false_eq_true, if_false]
    induction m with
    | nil =>
      rw [List.nil_append, lookup_cons_pair, if_neg (by rw [hk2k]; simp)]
    | cons a t ih =>
      obtain ⟨a1, a2⟩ := a
      rw [List.any_cons, Bool.or_eq_false_iff] at hany
      rw [List.cons_append, lookup_cons_pair, lookup_cons_pair]
      by_cases hk2a : (k2 == a1) = true
      · rw [if_pos hk2a, if_pos hk2a]
      · rw [Bool.not_eq_true] at hk2a
        rw [if_neg (by rw [hk2a]; simp), if_neg (by rw [hk2a]; simp)]
        exact ih hany.2

theorem mem_mapSet_key (m : AppsMap) (k : String) (v w : AppData)
    (h : (k, w) ∈ mapSet m k v) : w = v := by
  unfold mapSet at h
  by_cases hany : m.any (fun p => p.1 == k) = true
  · rw [if_pos hany, List.mem_map] at h
    obtain ⟨q, _, hq⟩ := h
    by_cases hqk : (q.1 == k) = true
    · rw [if_pos hqk] at hq
      have := congrArg Prod.snd hq
      exact this.symm
    · rw [Bool.not_eq_true] at hqk
      rw [hqk] at hq
      simp only [Bool.false_eq_true, if_false] at hq
      have hq1 : q.1 = k := by rw [hq]
      rw [beq_eq_false_iff_ne] at hqk
      exact absurd hq1 hqk
  · rw [Bool.not_eq_true] at hany
    rw [hany] at h
    simp only [Bool.false_eq_true, if_false, List.mem_append,
      List.mem_singleton] at h
    rcases h with h | h
    · rw [List.any_eq_false] at hany
      have := hany (k, w) h
      simp at this
    · have := congrArg Prod.snd h
      exact this

/-- A concrete stored app created at time zero. -/
def c1App : AppData :=
  ⟨"app1", [("index.html", "x")], "p", "ip1", 0, 0⟩

/-- Counterexample to claim C1: one millisecond past the TTL, with no sweep
having run, getApp and getAppFiles still return the stored session rather
than not-found, because lookups perform no age check. -/
theorem claim1_counterexample :
    (APP_EXPIRY_TIME + 1) - c1App.createdAt > APP_EXPIRY_TIME ∧
    (getApp [("app1", c1App)] "app1" (APP_EXPIRY_TIME + 1)).1 ≠ none ∧
    (getAppFiles [("app1", c1App)] "app1" (APP_EXPIRY_TIME + 1)).1 ≠ none :=
  ⟨by decide, by decide, by decide⟩

/-- Claim C1 as amended: getApp returns whatever is physically in the store
regardless of age, refreshing lastAccessed; a session past its TTL becomes
not-found only once a sweep has removed it, as after cleanupExpiredApps at
the time of the lookup. -/
theorem claim1_amended_lookup_ignores_ttl (m : AppsMap) (appId : String)
    (now : Int) :
    (getApp m appId now).1
      = (mapGet m appId).map (fun a => { a with lastAccessed := now }) ∧
    ((∀ q ∈ m, q.1 = appId → now - q.2.createdAt > APP_EXPIRY_TIME) →
      (getApp (cleanupExpiredApps now m) appId now).1 = none) := by
  constructor
  · unfold getApp
    cases h : mapGet m appId with
    | none => rfl
    | some app => rfl
  · intro h
    unfold getApp
    have hnone : mapGet (cleanupExpiredApps now m) appId = none := by
      unfold mapGet cleanupExpiredApps
      apply lookup_filter_of_key
      intro q hq hk
      rw [decide_eq_true (h q hq hk)]
      rfl
    rw [hnone]

/-- Witness for the amended claim C1 at a concrete expired, unswept app. -/
theorem claim1_amended_witness :
    ((getApp [("app1", c1App)] "app1" (APP_EXPIRY_TIME + 1)).1
       = (mapGet [("app1", c1App)] "app1").map
           (fun a => { a with lastAccessed := APP_EXPIRY_TIME + 1 })) ∧
    (∀ q ∈ [("app1", c1App)], q.1 = "app1" →
       (APP_EXPIRY_TIME + 1) - q.2.createdAt > APP_EXPIRY_TIME) ∧
    (getApp (cleanupExpiredApps (APP_EXPIRY_TIME + 1) [("app1", c1App)])
       "app1" (APP_EXPIRY_TIME + 1)).1 = none := by
  have h := claim1_amended_lookup_ignores_ttl [("app1", c1App)] "app1"
    (APP_EXPIRY_TIME + 1)
  exact ⟨h.1, by decide, h.2 (by decide)⟩

/-- Claim C10: storing a session under an id that is already present
silently replaces the existing session: the stored record is returned, a
lookup of that id yields the new files and metadata, other ids are
untouched, and no entry under that id holds the previous record any
longer. -/
theorem claim10_put_replaces_existing (m : AppsMap) (appId : String)
    (old : AppData) (h : mapGet m appId = some old)
    (files : List (String × String)) (prompt userIP : String)
    (now now2 : Int) :
    (storeApp m appId files prompt userIP now).1
      = ⟨appId, files, prompt, userIP, now, now⟩ ∧
    mapGet (storeApp m appId files prompt userIP now).2 appId
      = some ⟨appId, files, prompt, userIP, now, now⟩ ∧
    (∀ k2, k2 ≠ appId →
      mapGet (storeApp m appId files prompt userIP now).2 k2 = mapGet m k2) ∧
    (∀ w, (appId, w) ∈ (storeApp m appId files prompt userIP now).2 →
      w = ⟨appId, files, prompt, userIP, now, now⟩) ∧
    (getApp (storeApp m appId files prompt userIP now).2 appId now2).1
      = some ⟨appId, files, prompt, userIP, now, now2⟩ := by
  refine ⟨rfl, ?_, ?_, ?_, ?_⟩
  · exact mapGet_mapSet_self m appId _
  · intro k2 hk2
    exact mapGet_mapSet_ne m appId k2 _ hk2
  · intro w hw
    exact mem_mapSet_key m appId _ w hw
  · unfold getApp
    rw [show (storeApp m appId files prompt userIP now).2
        = mapSet m appId ⟨appId, files, prompt, userIP, now, now⟩ from rfl]
    rw [mapGet_mapSet_self]

/-- Witness for claim C10 at a concrete store already holding the id. -/
theorem claim10_witness :
    mapGet [("app1", c1App)] "app1" = some c1App ∧
    ((storeApp [("app1", c1App)] "app1" [("a.txt", "y")] "p2" "ip2" 5).1
       = ⟨"app1", [("a.txt", "y")], "p2", "ip2", 5, 5⟩ ∧
     mapGet (storeApp [("app1", c1App)] "app1" [("a.txt", "y")] "p2" "ip2" 5).2 "app1"
       = some ⟨"app1", [("a.txt", "y")], "p2", "ip2", 5, 5⟩ ∧
     (∀ k2, k2 ≠ "app1" →
       mapGet (storeApp [("app1", c1App)] "app1" [("a.txt", "y")] "p2" "ip2" 5).2 k2
         = mapGet [("app1", c1App)] k2) ∧
     (∀ w, ("app1", w) ∈ (storeApp [("app1", c1App)] "app1" [("a.txt", "y")] "p2" "ip2" 5).2 →
       w = ⟨"app1", [("a.txt", "y")], "p2", "ip2", 5, 5⟩) ∧
     (getApp (storeApp [("app1", c1App)] "app1" [("a.txt", "y")] "p2" "ip2" 5).2 "app1" 7).1
       = some ⟨"app1", [("a.txt", "y")], "p2", "ip2", 5, 7⟩) :=
  ⟨by decide,
   claim10_put_replaces_existing [("app1", c1App)] "app1" c1App (by decide)
     [("a.txt", "y")] "p2" "ip2" 5 7⟩

/-- Claim C9: a failed generation call commits nothing: the store is left
exactly as it was, the result is a failure, and a lookup of the session id
still reports not-found; on success the files mapping enters the store in
one single update and is non-empty. -/
theorem claim9_failed_build_commits_nothing
    (prompt appId userIP e text : String) (now : Int) (m : AppsMap)
    (hfresh : mapGet m appId = none) :
    ((buildWebApp (Except.error e) prompt appId userIP now m).apps = m ∧
     (buildWebApp (Except.error e) prompt appId userIP now m).result.success
       = false ∧
     (buildWebApp (Except.error e) prompt appId userIP now m).result.error
       = some e ∧
     mapGet (buildWebApp (Except.error e) prompt appId userIP now m).apps appId
       = none) ∧
    ((buildWebApp (Except.ok text) prompt appId userIP now m).apps
       = mapSet m appId ⟨appId, extractFiles text, prompt, userIP, now, now⟩ ∧
     extractFiles text ≠ [] ∧
     mapGet (buildWebApp (Except.ok text) prompt appId userIP now m).apps appId
       = some ⟨appId, extractFiles text, prompt, userIP, now, now⟩) := by
  refine ⟨⟨rfl, rfl, rfl, hfresh⟩, ⟨rfl, extractFiles_ne_nil text, ?_⟩⟩
  rw [show (buildWebApp (Except.ok text) prompt appId userIP now m).apps
      = mapSet m appId ⟨appId, extractFiles text, prompt, userIP, now, now⟩ from rfl]
  exact mapGet_mapSet_self m appId _

/-- Witness for claim C9 at a fresh id over the empty store. -/
theorem claim9_witness :
    mapGet [] "b1" = none ∧
    (((buildWebApp (Except.error "boom") "p" "b1" "ip1" 0 []).apps = [] ∧
      (buildWebApp (Except.error "boom") "p" "b1" "ip1" 0 []).result.success
        = false ∧
      (buildWebApp (Except.error "boom") "p" "b1" "ip1" 0 []).result.error
        = some "boom" ∧
      mapGet (buildWebApp (Except.error "boom") "p" "b1" "ip1" 0 []).apps "b1"
        = none) ∧
     ((buildWebApp (Except.ok "x") "p" "b1" "ip1" 0 []).apps
        = mapSet [] "b1" ⟨"b1", extractFiles "x", "p", "ip1", 0, 0⟩ ∧
      extractFiles "x" ≠ [] ∧
      mapGet (buildWebApp (Except.ok "x") "p" "b1" "ip1" 0 []).apps "b1"
        = some ⟨"b1", extractFiles "x", "p", "ip1", 0, 0⟩)) :=
  ⟨rfl, claim9_failed_build_commits_nothing "p" "b1" "ip1" "boom" "x" 0 [] rfl⟩

/-- Claim C8: when the quota check fails, the orchestrator produces the
failure result, emits the error event as its terminal event, leaves the
store with only the sweep applied (no session created), and the outcome
does not depend on the generation oracle at all. -/
theorem claim8_quota_failure_short_circuits
    (gen : Except String String) (prompt userIP : String)
    (predefinedAppId : Option String) (generatedId : String) (now : Int)
    (m : AppsMap) (msg : String)
    (h : checkLimits m userIP now = Except.error msg) :
    (buildWebAppWithLogs gen prompt userIP predefinedAppId generatedId now m).result
      = ⟨false, predefinedAppId.getD generatedId, [], some msg, none⟩ ∧
    (buildWebAppWithLogs gen prompt userIP predefinedAppId generatedId now m).events
      = [⟨predefinedAppId.getD generatedId, "log", "Checking resource limits..."⟩,
         ⟨predefinedAppId.getD generatedId, "error", "Build failed: " ++ msg⟩] ∧
    ((buildWebAppWithLogs gen prompt userIP predefinedAppId generatedId now
        m).events.getLast?).map LogEvent.type = some "error" ∧
    (buildWebAppWithLogs gen prompt userIP predefinedAppId generatedId now m).apps
      = cleanupExpiredApps now m ∧
    (∀ gen2, buildWebAppWithLogs gen2 prompt userIP predefinedAppId generatedId now m
       = buildWebAppWithLogs gen prompt userIP predefinedAppId generatedId now m) ∧
    (mapGet m (predefinedAppId.getD generatedId) = none →
      mapGet (buildWebAppWithLogs gen prompt userIP predefinedAppId generatedId
        now m).apps (predefinedAppId.getD generatedId) = none) := by
  have hb : ∀ gen2 : Except String String,
      buildWebAppWithLogs gen2 prompt userIP predefinedAppId generatedId now m
        = { result := ⟨false, predefinedAppId.getD generatedId, [], some msg, none⟩
            apps := cleanupExpiredApps now m
            events := [⟨predefinedAppId.getD generatedId, "log",
                         "Checking resource limits..."⟩,
                       ⟨predefinedAppId.getD generatedId, "error",
                         "Build failed: " ++ msg⟩] } := by
    intro gen2
    unfold buildWebAppWithLogs
    rw [h]
  refine ⟨?_, ?_, ?_, ?_, ?_, ?_⟩
  · rw [hb gen]
  · rw [hb gen]
  · rw [hb gen]
    rfl
  · rw [hb gen]
  · intro gen2
    rw [hb gen, hb gen2]
  · intro hf
    rw [hb gen]
    unfold mapGet cleanupExpiredApps
    exact lookup_filter_none _ _ _ hf

/-- The ten apps of one origin that fill its quota. -/
def c8Map : AppsMap :=
  ["a0", "a1", "a2", "a3", "a4", "a5", "a6", "a7", "a8", "a9"].map
    (fun i => (i, (⟨i, [("index.html", "x")], "p", "ip1", 0, 0⟩ : AppData)))

/-- Witness for claim C8 at a store whose origin quota is already full. -/
theorem claim8_witness :
    checkLimits c8Map "ip1" 0 = Except.error perIPLimitMessage ∧
    ((buildWebAppWithLogs (Except.ok "t") "p" "ip1" none "a10" 0 c8Map).result
       = ⟨false, "a10", [], some perIPLimitMessage, none⟩ ∧
     (buildWebAppWithLogs (Except.ok "t") "p" "ip1" none "a10" 0 c8Map).events
       = [⟨"a10", "log", "Checking resource limits..."⟩,
          ⟨"a10", "error", "Build failed: " ++ perIPLimitMessage⟩] ∧
     ((buildWebAppWithLogs (Except.ok "t") "p" "ip1" none "a10" 0
         c8Map).events.getLast?).map LogEvent.type = some "error" ∧
     (buildWebAppWithLogs (Except.ok "t") "p" "ip1" none "a10" 0 c8Map).apps
       = cleanupExpiredApps 0 c8Map ∧
     (∀ gen2, buildWebAppWithLogs gen2 "p" "ip1" none "a10" 0 c8Map
        = buildWebAppWithLogs (Except.ok "t") "p" "ip1" none "a10" 0 c8Map) ∧
     (mapGet c8Map "a10" = none →
       mapGet (buildWebAppWithLogs (Except.ok "t") "p" "ip1" none "a10" 0
         c8Map).apps "a10" = none)) :=
  ⟨by decide,
   claim8_quota_failure_short_circuits (Except.ok "t") "p" "ip1" none "a10" 0
     c8Map perIPLimitMessage (by decide)⟩

/-- Claim C2: admission succeeds exactly when, after the sweep, the global
live count is below the global cap and the live count of the requesting
origin is below the per-origin cap; the two failure messages are distinct
and characterize which bound was hit. Concretely, ten same-origin
admissions succeed, the eleventh fails with the per-origin message, and an
admission from a different origin still succeeds. -/
theorem claim2_admission_quota (m : AppsMap) (userIP : String) (now : Int) :
    ((checkLimits m userIP now = Except.ok (cleanupExpiredApps now m) ↔
        (cleanupExpiredApps now m).length < MAX_APPS_TOTAL ∧
        ((cleanupExpiredApps now m).filter
            (fun p => p.2.userIP == userIP)).length < MAX_APPS_PER_IP) ∧
     (checkLimits m userIP now = Except.error globalLimitMessage ↔
        MAX_APPS_TOTAL ≤ (cleanupExpiredApps now m).length) ∧
     (checkLimits m userIP now = Except.error perIPLimitMessage ↔
        (cleanupExpiredApps now m).length < MAX_APPS_TOTAL ∧
        MAX_APPS_PER_IP ≤ ((cleanupExpiredApps now m).filter
            (fun p => p.2.userIP == userIP)).length) ∧
     globalLimitMessage ≠ perIPLimitMessage) ∧
    ((List.range 11).all (fun k => (scenarioState k).isOk) = true ∧
     scenarioState 11 = Except.error perIPLimitMessage ∧
     ((scenarioState 10).bind (fun m2 => admitApp m2 "b0" "ip2" 0)).isOk
       = true) := by
  have hmsg : globalLimitMessage ≠ perIPLimitMessage := by decide
  constructor
  · unfold checkLimits
    by_cases h1 : (cleanupExpiredApps now m).length ≥ MAX_APPS_TOTAL
    · rw [if_pos h1]
      refine ⟨⟨fun he => absurd he (by simp), fun hc => absurd h1 (by omega)⟩,
              ⟨fun _ => h1, fun _ => rfl⟩,
              ⟨fun he => ?_, fun hc => absurd h1 (by omega)⟩, hmsg⟩
      have : globalLimitMessage = perIPLimitMessage := by
        exact Except.error.inj he
      exact absurd this hmsg
    · rw [if_neg h1]
      by_cases h2 : ((cleanupExpiredApps now m).filter
          (fun p => p.2.userIP == userIP)).length ≥ MAX_APPS_PER_IP
      · rw [if_pos h2]
        refine ⟨⟨fun he => absurd he (by simp), fun hc => absurd h2 (by omega)⟩,
                ⟨fun he => ?_, fun hg => absurd hg (by omega)⟩,
                ⟨fun _ => ⟨by omega, h2⟩, fun _ => rfl⟩, hmsg⟩
        have : perIPLimitMessage = globalLimitMessage := by
          exact Except.error.inj he
        exact absurd this.symm hmsg
      · rw [if_neg h2]
        refine ⟨⟨fun _ => ⟨by omega, by omega⟩, fun _ => rfl⟩,
                ⟨fun he => absurd he (by simp), fun hg => absurd hg (by omega)⟩,
                ⟨fun he => absurd he (by simp), fun hc => absurd hc.2 (by omega)⟩,
                hmsg⟩
  · exact ⟨by decide, by decide, by decide⟩

/-! Helper lemmas about the broker. -/

theorem brokerRun_append (st : BrokerState) (l1 l2 : List BrokerOp) :
    brokerRun st (l1 ++ l2) = brokerRun (brokerRun st l1) l2 := by
  unfold brokerRun
  rw [List.foldl_append]

theorem brokerRun_cons (st : BrokerState) (op : BrokerOp) (l : List BrokerOp) :
    brokerRun st (op :: l) = brokerRun (brokerStep st op) l := rfl

theorem brokerStep_publish_none (st : BrokerState) (sid ty msg : String)
    (h : List.lookup sid st.streams = none) :
    brokerStep st (BrokerOp.publish sid ty msg) = st := by
  simp only [brokerStep]
  rw [h]

theorem brokerStep_publish_some (st : BrokerState) (sid ty msg : String)
    (s : Nat) (h : List.lookup sid st.streams = some s) :
    brokerStep st (BrokerOp.publish sid ty msg)
      = { st with delivered := st.delivered ++ [(s, ty, msg)] } := by
  simp only [brokerStep]
  rw [h]

theorem brokerRun_delivered_mono (ops : List BrokerOp) :
    ∀ st : BrokerState, ∃ d, (brokerRun st ops).delivered = st.delivered ++ d := by
  induction ops with
  | nil =>
    intro st
    exact ⟨[], by simp [brokerRun]⟩
  | cons op l ih =>
    intro st
    obtain ⟨d, hd⟩ := ih (brokerStep st op)
    rw [brokerRun_cons]
    cases op with
    | openStream sid sub => exact ⟨d, by rw [hd]; exact rfl⟩
    | closeStream sid => exact ⟨d, by rw [hd]; exact rfl⟩
    | publish sid ty msg =>
      cases h : List.lookup sid st.streams with
      | none =>
        refine ⟨d, ?_⟩
        rw [hd, brokerStep_publish_none st sid ty msg h]
      | some s =>
        refine ⟨(s, ty, msg) :: d, ?_⟩
        rw [hd, brokerStep_publish_some st sid ty msg s h]
        simp

theorem deliveredTo_append (s : Nat) (a b : List (Nat × String × String)) :
    deliveredTo s (a ++ b) = deliveredTo s a ++ deliveredTo s b := by
  unfold deliveredTo
  rw [List.filter_append, List.map_append]

theorem deliveredTo_self (s : Nat) (ty msg : String) :
    deliveredTo s [(s, ty, msg)] = [(ty, msg)] := by
  unfold deliveredTo
  simp

theorem deliveredTo_cons_self (s : Nat) (ty msg : String)
    (l : List (Nat × String × String)) :
    deliveredTo s ((s, ty, msg) :: l) = (ty, msg) :: deliveredTo s l := by
  unfold deliveredTo
  simp

/-- Claim C5: a progress event published for a session id with no
registered subscriber is dropped permanently, leaving the broker exactly as
if the publish had never happened, so no later subscriber can receive it;
an event published while a subscriber is registered is delivered to exactly
that subscriber; and two events published for one session while the same
subscriber is registered reach that subscriber in publication order. -/
theorem claim5_progress_delivery
    (sid t1 m1 t2 m2 : String) (s : Nat) (ops1 ops2 ops3 : List BrokerOp) :
    (lookupStream (brokerRun brokerInit ops1) sid = none →
       brokerRun brokerInit (ops1 ++ (BrokerOp.publish sid t1 m1 :: ops2))
         = brokerRun brokerInit (ops1 ++ ops2)) ∧
    (lookupStream (brokerRun brokerInit ops1) sid = some s →
       (brokerRun brokerInit (ops1 ++ [BrokerOp.publish sid t1 m1])).delivered
         = (brokerRun brokerInit ops1).delivered ++ [(s, t1, m1)]) ∧
    (lookupStream (brokerRun brokerInit ops1) sid = some s →
     lookupStream (brokerRun brokerInit
         (ops1 ++ (BrokerOp.publish sid t1 m1 :: ops2))) sid = some s →
       ∃ l2 l3,
         deliveredTo s (brokerRun brokerInit
             (ops1 ++ (BrokerOp.publish sid t1 m1 ::
               (ops2 ++ (BrokerOp.publish sid t2 m2 :: ops3))))).delivered
           = deliveredTo s (brokerRun brokerInit ops1).delivered
             ++ (t1, m1) :: l2 ++ (t2, m2) :: l3) := by
  refine ⟨?_, ?_, ?_⟩
  · intro h
    have h2 : List.lookup sid (brokerRun brokerInit ops1).streams = none := h
    rw [brokerRun_append, brokerRun_append, brokerRun_cons,
      brokerStep_publish_none _ _ _ _ h2]
  · intro h
    have h2 : List.lookup sid (brokerRun brokerInit ops1).streams = some s := h
    rw [brokerRun_append, brokerRun_cons,
      brokerStep_publish_some _ _ _ _ s h2]
    exact rfl
  · intro h1 h2
    have h1b : List.lookup sid (brokerRun brokerInit ops1).streams = some s := h1
    have h2b : List.lookup sid (brokerRun brokerInit
        (ops1 ++ (BrokerOp.publish sid t1 m1 :: ops2))).streams = some s := h2
    obtain ⟨d2, hd2⟩ := brokerRun_delivered_mono ops2
      (brokerStep (brokerRun brokerInit ops1) (BrokerOp.publish sid t1 m1))
    obtain ⟨d3, hd3⟩ := brokerRun_delivered_mono ops3
      (brokerStep (brokerRun brokerInit
          (ops1 ++ (BrokerOp.publish sid t1 m1 :: ops2)))
        (BrokerOp.publish sid t2 m2))
    refine ⟨deliveredTo s d2, deliveredTo s d3, ?_⟩
    have hsplit : ops1 ++ (BrokerOp.publish sid t1 m1 ::
        (ops2 ++ (BrokerOp.publish sid t2 m2 :: ops3)))
        = (ops1 ++ (BrokerOp.publish sid t1 m1 :: ops2))
          ++ (BrokerOp.publish sid t2 m2 :: ops3) := by
      simp
    rw [hsplit, brokerRun_append, brokerRun_cons, hd3,
      brokerStep_publish_some _ _ _ _ s h2b]
    have hmid : brokerRun brokerInit (ops1 ++ (BrokerOp.publish sid t1 m1 :: ops2))
        = brokerRun (brokerStep (brokerRun brokerInit ops1)
            (BrokerOp.publish sid t1 m1)) ops2 := by
      rw [brokerRun_append, brokerRun_cons]
    rw [hmid, hd2, brokerStep_publish_some _ _ _ _ s h1b]
    simp only [List.nil_append, List.append_assoc, List.cons_append,
      deliveredTo_append, deliveredTo_cons_self, deliveredTo_self]

/-- Witness for claim C5 over concrete operation sequences: an event
published before any subscriber attaches changes nothing, and two events
published while subscriber seven is attached are delivered to it in
order. -/
theorem claim5_witness :
    (brokerRun brokerInit
        ([] ++ (BrokerOp.publish "s1" "log" "m0" :: [BrokerOp.openStream "s1" 7]))
       = brokerRun brokerInit ([] ++ [BrokerOp.openStream "s1" 7])) ∧
    ((brokerRun brokerInit
        ([BrokerOp.openStream "s1" 7] ++ [BrokerOp.publish "s1" "log" "m1"])).delivered
       = (brokerRun brokerInit [BrokerOp.openStream "s1" 7]).delivered
         ++ [(7, "log", "m1")]) ∧
    (∃ l2 l3,
       deliveredTo 7 (brokerRun brokerInit
           ([BrokerOp.openStream "s1" 7] ++ (BrokerOp.publish "s1" "log" "m1" ::
             ([] ++ (BrokerOp.publish "s1" "success" "m2" :: []))))).delivered
         = deliveredTo 7
             (brokerRun brokerInit [BrokerOp.openStream "s1" 7]).delivered
           ++ ("log", "m1") :: l2 ++ ("success", "m2") :: l3) := by
  have hA := claim5_progress_delivery "s1" "log" "m0" "x" "y" 0 []
    [BrokerOp.openStream "s1" 7] []
  have hB := claim5_progress_delivery "s1" "log" "m1" "success" "m2" 7
    [BrokerOp.openStream "s1" 7] [] []
  exact ⟨hA.1 (by decide), hB.2.1 (by decide), hB.2.2 (by decide) (by decide)⟩

end WebBuilder
